import Mathlib

/-!
Shallow embedding of the alphabet layer of biocpp-core.

Characters are represented as their byte values (`Nat` in `[0, 256)`), matching the
`static_cast<unsigned char>` indexing the library performs on `char` input.  An alphabet
value of a type derived from `bio::alphabet::base` stores exactly one field, its rank,
so a value is embedded as the `Nat` holding that rank.  Lookup tables are embedded as
`List Nat` built exactly as the `constexpr` initializers in the source build them.
-/

namespace BioCpp

/-- Modelled from the spec: `bio/alphabet/detail/to_lower.hpp` is not under `src/`.
ASCII test for a lowercase letter, as implied by the spec's case-insensitivity
examples (`assign_char('t')` behaves like `assign_char('T')`). -/
def is_lower (c : Nat) : Bool := 97 ≤ c && c ≤ 122

/-- Modelled from the spec: ASCII test for an uppercase letter
(companion of [[is-lower]] from the missing `detail/to_lower.hpp`). -/
def is_upper (c : Nat) : Bool := 65 ≤ c && c ≤ 90

/-- Modelled from the spec: ASCII lowercasing from the missing `detail/to_lower.hpp`;
uppercase letters move down by 32 positions in ASCII, everything else is unchanged. -/
def to_lower (c : Nat) : Nat := if is_upper c then c + 32 else c

/-- Modelled from the spec: ASCII uppercasing from the missing `detail/to_lower.hpp`;
lowercase letters move up by 32 positions in ASCII, everything else is unchanged. -/
def to_upper (c : Nat) : Nat := if is_lower c then c - 32 else c

namespace aa20

/-- The `rank_to_char` table of `aa20` (src/unnamed/part_011, lines 90-92), as byte
values: 'A','C','D','E','F','G','H','I','K','L','M','N','P','Q','R','S','T','V','W','Y'. -/
def rank_to_char_table : List Nat :=
  [65, 67, 68, 69, 70, 71, 72, 73, 75, 76, 77, 78, 80, 81, 82, 83, 84, 86, 87, 89]

/-- The `char_to_rank` table of `aa20` (src/unnamed/part_011, lines 95-125), built
exactly as its `constexpr` initializer does: every cell starts at 15 (the rank of 'S'),
then for each rank the canonical character and its lowercase are written, then the
special conversions 'B'/'b' -> rank of 'D', 'J'/'j' and 'O'/'o' -> rank of 'L',
'U'/'u' -> rank of 'C', 'X'/'x' -> rank of 'S', 'Z'/'z' -> rank of 'E',
'*' -> rank of 'W', each read from the table state at that point. -/
def char_to_rank_table : List Nat :=
  let t0 := List.replicate 256 15
  let t1 := (List.range 20).foldl
    (fun t rnk =>
      (t.set (rank_to_char_table.getD rnk 0) rnk).set
        (to_lower (rank_to_char_table.getD rnk 0)) rnk)
    t0
  let t2 := t1.set 66 (t1.getD 68 0)    -- ret['B'] = ret['D']
  let t3 := t2.set 98 (t2.getD 68 0)    -- ret['b'] = ret['D']
  let t4 := t3.set 74 (t3.getD 76 0)    -- ret['J'] = ret['L']
  let t5 := t4.set 106 (t4.getD 76 0)   -- ret['j'] = ret['L']
  let t6 := t5.set 79 (t5.getD 76 0)    -- ret['O'] = ret['L']
  let t7 := t6.set 111 (t6.getD 76 0)   -- ret['o'] = ret['L']
  let t8 := t7.set 85 (t7.getD 67 0)    -- ret['U'] = ret['C']
  let t9 := t8.set 117 (t8.getD 67 0)   -- ret['u'] = ret['C']
  let t10 := t9.set 88 (t9.getD 83 0)   -- ret['X'] = ret['S']
  let t11 := t10.set 120 (t10.getD 83 0) -- ret['x'] = ret['S']
  let t12 := t11.set 90 (t11.getD 69 0) -- ret['Z'] = ret['E']
  let t13 := t12.set 122 (t12.getD 69 0) -- ret['z'] = ret['E']
  t13.set 42 (t13.getD 87 0)            -- ret['*'] = ret['W']

/-- Table lookup `char_to_rank[c]` for `aa20`. -/
def char_to_rank (c : Nat) : Nat := char_to_rank_table.getD c 0

/-- Member `to_rank()` of `bio::alphabet::base` (base.hpp, line 119): returns the
stored rank field. -/
def to_rank (st : Nat) : Nat := st

/-- Member `to_char()` of `bio::alphabet::base` (base.hpp, lines 97-103) instantiated
for `aa20`: `rank_to_char[rank]`. -/
def to_char (st : Nat) : Nat := rank_to_char_table.getD st 0

/-- Member `assign_char()` of `bio::alphabet::base` (base.hpp, lines 140-148)
instantiated for `aa20`: the stored rank becomes `char_to_rank[(unsigned char)c]`,
unconditionally, for every byte. -/
def assign_char (c : Nat) (_st : Nat) : Nat := char_to_rank c

/-- Member `assign_rank()` of `bio::alphabet::base` (base.hpp, lines 165-170):
stores the given rank (precondition `r < alphabet_size`, tracked in theorems). -/
def assign_rank (r : Nat) (_st : Nat) : Nat := r

end aa20

example : aa20.char_to_rank 66 = 2 := by decide
example : aa20.char_to_rank 42 = 18 := by decide
example : aa20.char_to_rank 48 = 15 := by decide

namespace rna4

/-- The `rank_to_char` table of `rna4` (src/unnamed/part_008, line 94), as byte
values: 'A','C','G','U'. -/
def rank_to_char_table : List Nat := [65, 67, 71, 85]

/-- Member `to_char()` of `bio::alphabet::base` instantiated for `rna4`. -/
def to_char (st : Nat) : Nat := rank_to_char_table.getD st 0

/-- Member `complement()` of `rna4` (src/unnamed/part_008, lines 85-88):
`rna4{}.assign_rank(to_rank() ^ 0b11)`. -/
def complement (st : Nat) : Nat := st ^^^ 3

end rna4

namespace gap

/-- The printed character of `gap` (src/unnamed/part_010, line 47): `char_value = '-'`,
byte 45. -/
def char_value : Nat := 45

end gap

/-- A value of a size-1 alphabet such as `bio::alphabet::gap`: the specialisation
`base<derived_type, 1, char_t>` (base.hpp, lines 263-340) stores no rank field, so the
value type carries no data. -/
structure gapV where

namespace gapV

/-- Member `to_rank()` of the size-1 base (base.hpp, line 301): always 0. -/
def to_rank (_ : gapV) : Nat := 0

/-- Member `to_char()` of the size-1 base (base.hpp, lines 292-298) for `gap`:
returns `derived_type::char_value`. -/
def to_char (_ : gapV) : Nat := gap.char_value

/-- Member `assign_char()` of the size-1 base (base.hpp, lines 308-314): a no-op that
returns the object unchanged. -/
def assign_char (_c : Nat) (v : gapV) : gapV := v

/-- Member `assign_rank()` of the size-1 base (base.hpp, line 317): a no-op that
returns the object unchanged. -/
def assign_rank (_r : Nat) (v : gapV) : gapV := v

/-- Friend `operator==` of the size-1 base (base.hpp, line 327): always true. -/
def eq_op (_ _ : gapV) : Bool := true

/-- Friend `operator<` of the size-1 base (base.hpp, line 330): always false. -/
def lt_op (_ _ : gapV) : Bool := false

/-- Friend `operator>` of the size-1 base (base.hpp, line 333): always false. -/
def gt_op (_ _ : gapV) : Bool := false

end gapV

/-- A value of an alphabet derived from the generic `bio::alphabet::base` (base.hpp,
lines 53-250): exactly one field, the stored rank (base.hpp, line 194). -/
structure baseV where
  rank : Nat

namespace baseV

/-- Member `to_rank()` of `bio::alphabet::base` (base.hpp, line 119): returns the
stored rank. -/
def to_rank (a : baseV) : Nat := a.rank

/-- Friend `operator==` of `bio::alphabet::base` (base.hpp, lines 180-183):
`lhs.to_rank() == rhs.to_rank()`. -/
def eq_op (a b : baseV) : Bool := a.to_rank == b.to_rank

/-- Friend `operator<=>` of `bio::alphabet::base` (base.hpp, lines 186-189):
`lhs.to_rank() <=> rhs.to_rank()`, the three-way comparison of the ranks. -/
def spaceship (a b : baseV) : Ordering := compare a.to_rank b.to_rank

/-- Derived `operator<`: `(lhs <=> rhs) < 0`, i.e. the three-way result is `lt`. -/
def lt_op (a b : baseV) : Bool := spaceship a b == Ordering.lt

end baseV

namespace tuple_base

/-- Modelled from the spec: `bio/alphabet/composite/tuple_base.hpp` is not under
`src/`.  Cumulative size of component 0 of a two-component tuple alphabet:
`cum[0] = 1`. -/
def cum0 (_s0 _s1 : Nat) : Nat := 1

/-- Modelled from the spec: cumulative size of component 1, `cum[1] = cum[0] * s0`. -/
def cum1 (s0 _s1 : Nat) : Nat := 1 * s0

/-- Modelled from the spec: the size of a tuple alphabet is the product of the
component sizes. -/
def alphabet_size (s0 s1 : Nat) : Nat := s0 * s1

/-- Modelled from the spec: component 0 of a packed tuple rank is decoded as
`(rank / cum[0]) % s0`. -/
def to_component_rank0 (s0 s1 r : Nat) : Nat := (r / cum0 s0 s1) % s0

/-- Modelled from the spec: component 1 of a packed tuple rank is decoded as
`(rank / cum[1]) % s1`. -/
def to_component_rank1 (s0 s1 r : Nat) : Nat := (r / cum1 s0 s1) % s1

/-- Modelled from the spec: assembling a tuple rank from component ranks in
mixed-radix form, `rank = r0 * cum[0] + r1 * cum[1]`. -/
def encode (s0 s1 r0 r1 : Nat) : Nat := r0 * cum0 s0 s1 + r1 * cum1 s0 s1

/-- Modelled from the spec: `assign_component_rank<1>` updates only component 1's
slice by first removing the old contribution and then adding the new one. -/
def assign_component_rank1 (s0 s1 r newr : Nat) : Nat :=
  r - to_component_rank1 s0 s1 r * cum1 s0 s1 + newr * cum1 s0 s1

end tuple_base

namespace masked

/-- Size of `masked<A>` for a component of size `n`: the tuple of `A` with the
2-state `mask` alphabet (the `mask` component itself is not under `src/`; modelled
from the spec, which describes `masked` as "a 2-state selector composited with a
sequence alphabet using the tuple encoding"). -/
def alphabet_size (n : Nat) : Nat := tuple_base.alphabet_size n 2

/-- The `rank_to_char` table of `masked` (src/unnamed/part_009, lines 97-108) as a
function of the rank: the generator loop writes, for every `i < alphabet_size / 2`,
the component's char at `i` and its lowercase at `i + alphabet_size / 2`. -/
def rank_to_char (seq_rtc : Nat → Nat) (n i : Nat) : Nat :=
  if i < alphabet_size n / 2 then seq_rtc i else to_lower (seq_rtc (i - alphabet_size n / 2))

/-- The `char_to_rank` table of `masked` (src/unnamed/part_009, lines 111-126) as a
function of the byte: lowercase input maps to the component's rank of its uppercase
plus `alphabet_size / 2`, everything else to the component's rank of the byte itself. -/
def char_to_rank (seq_ctr : Nat → Nat) (n c : Nat) : Nat :=
  if is_lower c then seq_ctr (to_upper c) + alphabet_size n / 2 else seq_ctr c

/-- Member `assign_char()` of `masked` (src/unnamed/part_009, lines 80-85):
`assign_rank(char_to_rank[(unsigned char)c])`. -/
def assign_char (seq_ctr : Nat → Nat) (n c : Nat) (_st : Nat) : Nat := char_to_rank seq_ctr n c

/-- Member `to_char()` of `masked` (src/unnamed/part_009, line 92):
`rank_to_char[to_rank()]`. -/
def to_char (seq_rtc : Nat → Nat) (n st : Nat) : Nat := rank_to_char seq_rtc n st

end masked

namespace qualified

/-- Member `assign_char()` of `qualified` (qualified.hpp, lines 106-116):
`assign_rank(to_rank(assign_char_to(c, seq{})) * cum[0] + to_component_rank<1>() * cum[1])`,
where `seq_ctr c` is the rank the sequence alphabet assigns to byte `c`. -/
def assign_char (s0 s1 : Nat) (seq_ctr : Nat → Nat) (c r : Nat) : Nat :=
  seq_ctr c * tuple_base.cum0 s0 s1 + tuple_base.to_component_rank1 s0 s1 r * tuple_base.cum1 s0 s1

/-- Member `assign_phred()` of `qualified` (qualified.hpp, lines 118-123): assigns a
phred value to the quality component through `get<1>`; the write-through proxy is
modelled from the spec as `assign_component_rank<1>` with the quality alphabet's
rank for the phred value (`qual_ptr p`). -/
def assign_phred (s0 s1 : Nat) (qual_ptr : Nat → Nat) (p r : Nat) : Nat :=
  tuple_base.assign_component_rank1 s0 s1 r (qual_ptr p)

/-- Entry `i` of the `rank_to_phred` table of `qualified` (qualified.hpp,
lines 171-184): `qual_rank = (i / cum[1]) % size<quality_alphabet_type>`, then the
quality alphabet's phred of that rank (`qual_to_phred`). -/
def rank_to_phred (s0 s1 : Nat) (qual_to_phred : Nat → Nat) (i : Nat) : Nat :=
  qual_to_phred ((i / tuple_base.cum1 s0 s1) % s1)

/-- Member `to_phred()` of `qualified` (qualified.hpp, line 130):
`rank_to_phred[to_rank()]`. -/
def to_phred (s0 s1 : Nat) (qual_to_phred : Nat → Nat) (r : Nat) : Nat :=
  rank_to_phred s0 s1 qual_to_phred r

/-- Entry `i` of the `rank_to_char` table of `qualified` exactly as the source writes
it (qualified.hpp, lines 155-168): `seq_rank = (i / cum[0]) % size<QUALITY alphabet>`
(note the modulus), then the char of the SEQUENCE alphabet at that rank (`seq_rtc`). -/
def rank_to_char (s0 s1 : Nat) (seq_rtc : Nat → Nat) (i : Nat) : Nat :=
  seq_rtc ((i / tuple_base.cum0 s0 s1) % s1)

/-- Member `to_char()` of `qualified` (qualified.hpp, line 133):
`rank_to_char[to_rank()]`. -/
def to_char (s0 s1 : Nat) (seq_rtc : Nat → Nat) (r : Nat) : Nat :=
  rank_to_char s0 s1 seq_rtc r

end qualified

/-- The byte values excluded by claim C6: the 20 canonical `aa20` letters in upper and
lower case, the specially mapped B/J/O/U/X/Z in both cases, and '*' (42). -/
def aa20.claim_excluded_bytes : List Nat :=
  [65, 67, 68, 69, 70, 71, 72, 73, 75, 76, 77, 78, 80, 81, 82, 83, 84, 86, 87, 89,
   97, 99, 100, 101, 102, 103, 104, 105, 107, 108, 109, 110, 112, 113, 114, 115, 116, 118, 119, 121,
   66, 98, 74, 106, 79, 111, 85, 117, 88, 120, 90, 122, 42]

/-- The canonical `aa20` letters in both cases: the bytes whose `masked<aa20>` char
round-trip claim C10 calls the valid letters. -/
def aa20.letters_both_cases : List Nat :=
  [65, 67, 68, 69, 70, 71, 72, 73, 75, 76, 77, 78, 80, 81, 82, 83, 84, 86, 87, 89,
   97, 99, 100, 101, 102, 103, 104, 105, 107, 108, 109, 110, 112, 113, 114, 115, 116, 118, 119, 121]

/-- Claim C1 (code bug): `qualified<Seq,Qual>::to_char()` is claimed to equal the char
of the sequence component alone.  The source's `rank_to_char` generator
(qualified.hpp, line 161) decodes component 0 with `% size<quality_alphabet_type>`
instead of `% size<sequence_alphabet_type>`.  Evaluating the code as written for
`qualified<rna4, phred42>` (sizes 4 and 42) at composite rank 42 — sequence rank 2
('G' = 71), quality rank 10 — the table entry is the char of sequence rank
`(42 / 1) % 42 = 0`, i.e. 'A' (65), not the sequence component's char 'G' (71). -/
theorem qualified_to_char_misdecodes_at_rank42 :
    qualified.to_char 4 42 rna4.to_char 42 = 65
    ∧ rna4.to_char (tuple_base.to_component_rank0 4 42 42) = 71 := by
  decide

/-- Claim C2: for `qualified` pairing a 4-letter alphabet with a 42-value quality
alphabet, `alphabet_size = 168`, the cumulative sizes are `[1, 4]`, the composite
rank of component ranks `(r0, r1)` is `r0 * 1 + r1 * 4` (so `(2, 10)` gives 42), and
decoding `(rank / cum[i]) % size_i` recovers both component ranks exactly. -/
theorem qualified_mixed_radix_round_trip :
    tuple_base.alphabet_size 4 42 = 168
    ∧ tuple_base.cum0 4 42 = 1
    ∧ tuple_base.cum1 4 42 = 4
    ∧ tuple_base.encode 4 42 2 10 = 42
    ∧ ∀ r0 : Fin 4, ∀ r1 : Fin 42,
        tuple_base.to_component_rank0 4 42 (tuple_base.encode 4 42 r0.val r1.val) = r0.val
        ∧ tuple_base.to_component_rank1 4 42 (tuple_base.encode 4 42 r0.val r1.val) = r1.val := by
  decide

set_option maxRecDepth 40000 in
/-- The `char_to_rank` table of `aa20` maps every byte to a rank below 20. -/
theorem aa20_char_to_rank_lt : ∀ c : Fin 256, aa20.char_to_rank c.val < 20 := by
  decide

set_option maxRecDepth 40000 in
/-- The `char_to_rank` table of `masked<aa20>` maps every byte to a rank below the
composite size 40. -/
theorem masked_aa20_char_to_rank_lt :
    ∀ c : Fin 256, masked.char_to_rank aa20.char_to_rank 20 c.val < masked.alphabet_size 20 := by
  decide

/-- Claim C3: `assign_char` is total — for every one of the 256 byte values and any
prior state, the resulting rank is in range, because the `char_to_rank` tables map
all 256 bytes to in-range ranks.  Verified for the alphabets whose tables are under
`src/`: `aa20` (size 20) and `masked<aa20>` (size 40). -/
theorem assign_char_total_and_in_range :
    ∀ c : Fin 256, ∀ st : Nat,
      aa20.to_rank (aa20.assign_char c.val st) < 20
      ∧ masked.assign_char aa20.char_to_rank 20 c.val st < masked.alphabet_size 20 :=
  fun c _st => ⟨aa20_char_to_rank_lt c, masked_aa20_char_to_rank_lt c⟩

set_option maxRecDepth 40000 in
/-- Claim C4: for every rank `r` below the alphabet size, assigning rank `r`,
converting to char, assigning that char back and reading the rank reproduces `r`.
Verified for the alphabets whose tables are under `src/`: `aa20`, `masked<aa20>`
and the size-1 alphabet `gap`. -/
theorem rank_char_rank_round_trip :
    (∀ r : Fin 20,
       aa20.to_rank (aa20.assign_char (aa20.to_char (aa20.assign_rank r.val 0)) 0) = r.val)
    ∧ (∀ r : Fin (masked.alphabet_size 20),
       masked.assign_char aa20.char_to_rank 20
         (masked.to_char aa20.to_char 20 (aa20.assign_rank r.val 0)) 0 = r.val)
    ∧ (∀ r : Fin 1,
       gapV.to_rank (gapV.assign_char (gapV.to_char (gapV.assign_rank r.val {})) {}) = r.val) := by
  decide

/-- Splitting a packed rank below `s0 * s1` at the cumulative weight `s0`:
subtracting the encoded component-1 contribution leaves `q % s0`. -/
lemma sub_component1_eq_mod (s0 s1 q : Nat) (hq : q < s0 * s1) :
    q - q / s0 % s1 * s0 = q % s0 := by
  have hd : q / s0 < s1 := Nat.div_lt_of_lt_mul hq
  rw [Nat.mod_eq_of_lt hd, Nat.sub_eq_iff_eq_add (Nat.div_mul_le_self q s0)]
  exact (Nat.mod_add_div' q s0).symm

/-- Claim C5: mutating one component of a `qualified` composite leaves the other
component unchanged.  `assign_char(c)` (qualified.hpp, lines 106-116) re-encodes the
sequence slice only: afterwards `to_phred` is unchanged and the decoded sequence rank
is the rank the sequence alphabet assigns to `c`.  `assign_phred(p)`
(qualified.hpp, lines 118-123) writes only the quality slice: afterwards the decoded
sequence rank is unchanged and the decoded quality rank is the quality alphabet's
rank for `p`.  Stated for any component sizes `s0`, `s1`, any packed rank
`q < s0 * s1`, any sequence `char_to_rank` function in range at `c`, and any quality
phred-to-rank function in range at `p`. -/
theorem qualified_component_independence (s0 s1 q c p : Nat)
    (seq_ctr qual_to_phred qual_ptr : Nat → Nat)
    (hq : q < tuple_base.alphabet_size s0 s1)
    (hc : seq_ctr c < s0)
    (hp : qual_ptr p < s1) :
    qualified.to_phred s0 s1 qual_to_phred (qualified.assign_char s0 s1 seq_ctr c q)
      = qualified.to_phred s0 s1 qual_to_phred q
    ∧ tuple_base.to_component_rank0 s0 s1 (qualified.assign_char s0 s1 seq_ctr c q)
      = seq_ctr c
    ∧ tuple_base.to_component_rank0 s0 s1 (qualified.assign_phred s0 s1 qual_ptr p q)
      = tuple_base.to_component_rank0 s0 s1 q
    ∧ tuple_base.to_component_rank1 s0 s1 (qualified.assign_phred s0 s1 qual_ptr p q)
      = qual_ptr p := by
  have hs0 : 0 < s0 := Nat.lt_of_le_of_lt (Nat.zero_le _) hc
  have hs1 : 0 < s1 := Nat.lt_of_le_of_lt (Nat.zero_le _) hp
  have hq' : q < s0 * s1 := by simpa [tuple_base.alphabet_size] using hq
  have hsub : q - q / s0 % s1 * s0 = q % s0 := sub_component1_eq_mod s0 s1 q hq'
  refine ⟨?_, ?_, ?_, ?_⟩
  · simp only [qualified.to_phred, qualified.rank_to_phred, qualified.assign_char,
      tuple_base.cum0, tuple_base.cum1, tuple_base.to_component_rank1,
      Nat.one_mul, Nat.mul_one, Nat.div_one]
    congr 1
    rw [Nat.add_mul_div_right _ _ hs0, Nat.div_eq_of_lt hc, Nat.zero_add,
      Nat.mod_eq_of_lt (Nat.mod_lt _ hs1)]
  · simp only [qualified.assign_char, tuple_base.to_component_rank0,
      tuple_base.cum0, tuple_base.cum1, tuple_base.to_component_rank1,
      Nat.one_mul, Nat.mul_one, Nat.div_one]
    rw [Nat.add_mul_mod_self_right, Nat.mod_eq_of_lt hc]
  · simp only [qualified.assign_phred, tuple_base.assign_component_rank1,
      tuple_base.to_component_rank0, tuple_base.to_component_rank1,
      tuple_base.cum0, tuple_base.cum1, Nat.one_mul, Nat.mul_one, Nat.div_one]
    rw [hsub, Nat.add_mul_mod_self_right, Nat.mod_mod_of_dvd _ (Nat.dvd_refl s0)]
  · simp only [qualified.assign_phred, tuple_base.assign_component_rank1,
      tuple_base.to_component_rank1, tuple_base.cum0, tuple_base.cum1,
      Nat.one_mul, Nat.mul_one, Nat.div_one]
    rw [hsub, Nat.add_mul_div_right _ _ hs0, Nat.div_eq_of_lt (Nat.mod_lt _ hs0),
      Nat.zero_add, Nat.mod_eq_of_lt hp]

/-- Witness for claim C5 at `qualified<rna4, phred42>` (sizes 4 and 42): packed rank
42 (sequence rank 2, quality rank 10), a char mapped to sequence rank 2, and a phred
value mapped to quality rank 5. -/
theorem qualified_component_independence_witness :
    qualified.to_phred 4 42 (fun p => p) (qualified.assign_char 4 42 (fun _ => 2) 71 42)
      = qualified.to_phred 4 42 (fun p => p) 42
    ∧ tuple_base.to_component_rank0 4 42 (qualified.assign_char 4 42 (fun _ => 2) 71 42)
      = 2
    ∧ tuple_base.to_component_rank0 4 42 (qualified.assign_phred 4 42 (fun p => p) 5 42)
      = tuple_base.to_component_rank0 4 42 42
    ∧ tuple_base.to_component_rank1 4 42 (qualified.assign_phred 4 42 (fun p => p) 5 42)
      = 5 :=
  qualified_component_independence 4 42 42 71 5 (fun _ => 2) (fun p => p) (fun p => p)
    (by decide) (by decide) (by decide)

set_option maxRecDepth 40000 in
/-- Claim C6: every input byte that is neither one of the 20 canonical `aa20` letters
(either case), nor one of the specially mapped B/J/O/U/X/Z (either case), nor '*',
is mapped by `assign_char` to rank 15, the rank of Serine, so its char reads back as
'S' (83). -/
theorem aa20_unknown_bytes_map_to_serine :
    ∀ c : Fin 256, c.val ∉ aa20.claim_excluded_bytes →
      aa20.char_to_rank c.val = 15
      ∧ aa20.to_char (aa20.to_rank (aa20.assign_char c.val 0)) = 83 := by
  decide

/-- Witness for claim C6 at byte 48 (the digit '0'), which is not an excluded byte. -/
theorem aa20_unknown_bytes_map_to_serine_witness :
    (48 ∉ aa20.claim_excluded_bytes)
    ∧ (aa20.char_to_rank 48 = 15
       ∧ aa20.to_char (aa20.to_rank (aa20.assign_char 48 0)) = 83) :=
  ⟨by decide, aa20_unknown_bytes_map_to_serine ⟨48, by decide⟩ (by decide)⟩

/-- Claim C7: for alphabets derived from `bio::alphabet::base`, `operator==` holds
exactly when the ranks are equal and `operator<` (derived from `operator<=>`) holds
exactly when the rank is smaller; both are functions of `to_rank()` only. -/
theorem base_comparison_is_rank_comparison :
    ∀ a b : baseV,
      (baseV.eq_op a b = true ↔ baseV.to_rank a = baseV.to_rank b)
      ∧ (baseV.lt_op a b = true ↔ baseV.to_rank a < baseV.to_rank b) := by
  intro a b
  constructor
  · simp [baseV.eq_op]
  · show (compare (baseV.to_rank a) (baseV.to_rank b) == Ordering.lt) = true ↔ _
    have h : (compare (baseV.to_rank a) (baseV.to_rank b) == Ordering.lt) = true
        ↔ compare (baseV.to_rank a) (baseV.to_rank b) = Ordering.lt := by
      cases compare (baseV.to_rank a) (baseV.to_rank b) <;> decide
    rw [h, Nat.compare_eq_lt]

/-- Claim C8: for a size-1 alphabet (here `gap`), all instances compare equal, `<`
and `>` are always false, `to_rank()` is always 0, `assign_rank` and `assign_char`
are no-ops returning the value unchanged, and `to_char()` is the canonical '-' (45). -/
theorem size_one_alphabet_is_degenerate :
    ∀ (a b : gapV) (c r : Nat),
      gapV.eq_op a b = true
      ∧ gapV.lt_op a b = false
      ∧ gapV.gt_op a b = false
      ∧ gapV.to_rank a = 0
      ∧ gapV.assign_rank r a = a
      ∧ gapV.assign_char c a = a
      ∧ gapV.to_char a = gap.char_value :=
  fun _a _b _c _r => ⟨rfl, rfl, rfl, rfl, rfl, rfl, rfl⟩

/-- Claim C9: `rna4::complement` is rank XOR 3, an involution staying in range, and
it swaps the Watson-Crick pairs on the char table 'A','C','G','U':
A (rank 0) maps to U (rank 3), C (rank 1) to G (rank 2), and vice versa. -/
theorem rna4_complement_xor_involution :
    (∀ x : Fin 4,
       rna4.complement x.val = x.val ^^^ 3
       ∧ rna4.complement (rna4.complement x.val) = x.val
       ∧ rna4.complement x.val < 4)
    ∧ rna4.to_char 0 = 65 ∧ rna4.to_char (rna4.complement 0) = 85
    ∧ rna4.to_char 1 = 67 ∧ rna4.to_char (rna4.complement 1) = 71
    ∧ rna4.to_char 2 = 71 ∧ rna4.to_char (rna4.complement 2) = 67
    ∧ rna4.to_char 3 = 85 ∧ rna4.to_char (rna4.complement 3) = 65 := by
  decide

set_option maxRecDepth 40000 in
/-- Claim C10: for `masked<aa20>` (component size 20, composite size 40):
`assign_char` on a lowercase byte yields the component's rank of its uppercase plus
20, and on any other byte the component's rank of the byte itself; `to_char` of a
rank below 20 is the component's char and of rank `r + 20` its lowercase; hence the
char of `assign_char(c)` reproduces `c` for the canonical letters in both cases. -/
theorem masked_aa20_case_preservation :
    (∀ c : Fin 256,
       (is_lower c.val = true →
          masked.assign_char aa20.char_to_rank 20 c.val 0
            = aa20.char_to_rank (to_upper c.val) + 20)
       ∧ (is_lower c.val = false →
          masked.assign_char aa20.char_to_rank 20 c.val 0 = aa20.char_to_rank c.val))
    ∧ (∀ r : Fin 20,
       masked.to_char aa20.to_char 20 r.val = aa20.to_char r.val
       ∧ masked.to_char aa20.to_char 20 (r.val + 20) = to_lower (aa20.to_char r.val))
    ∧ (∀ c : Fin 256, c.val ∈ aa20.letters_both_cases →
       masked.to_char aa20.to_char 20 (masked.assign_char aa20.char_to_rank 20 c.val 0)
         = c.val) := by
  decide

/-- Witness for claim C10 at byte 97 ('a'): a lowercase valid letter, which lands in
the masked half (rank of 'A' plus 20) and whose char reads back as 'a'. -/
theorem masked_aa20_case_preservation_witness :
    (is_lower 97 = true)
    ∧ (masked.assign_char aa20.char_to_rank 20 97 0 = aa20.char_to_rank (to_upper 97) + 20)
    ∧ (97 ∈ aa20.letters_both_cases)
    ∧ (masked.to_char aa20.to_char 20 (masked.assign_char aa20.char_to_rank 20 97 0) = 97) :=
  ⟨by decide,
   (masked_aa20_case_preservation.1 ⟨97, by decide⟩).1 (by decide),
   by decide,
   masked_aa20_case_preservation.2.2 ⟨97, by decide⟩ (by decide)⟩

end BioCpp
